import Mathlib

/-!
Shallow embedding of `version_support.py` and `learn_multiprocessing.py`
(repository `wleepang/learn`), with theorems checking the repository's
specification against the code.

Conventions of the embedding:
* Python machine strings are Lean `String`s; Python `None` is `Option.none`.
* An HTTP response is reduced to the two fields the code consults:
  `status_code`, and the result of `resp.json()` (`none` models a body
  that fails to parse, which in Python raises a JSON decode error).
* A Python exception that `read_package` does NOT catch (only
  `SkippingError` is caught) is modelled with `Except.error`.
* Regex use is modelled for ASCII inputs: `\d` is an ASCII digit and
  `\s` an ASCII whitespace character, which is exact on every input
  appearing in this development.
-/

/-- ASCII model of the Python regex class `\s` (space, tab, newline,
carriage return, vertical tab, form feed). -/
def isPySpace (c : Char) : Bool :=
  c == ' ' || c == '\t' || c == '\n' || c == '\r' || c == '\x0b' || c == '\x0c'

/-- Characters of the literal part `Python :: ` of the search pattern
`Python :: \d(\.\d)?` used in `get_versions`. -/
def pySig : List Char := [ 'P', 'y', 't', 'h', 'o', 'n', ' ', ':', ':', ' ' ]

/-- Does the pattern `Python :: \d(\.\d)?` match at the head of `l`?
Since the group `(\.\d)?` is optional, `re.search` succeeds exactly when
the literal `Python :: ` followed by a digit occurs somewhere. -/
def pyMatchHead (l : List Char) : Bool :=
  pySig.isPrefixOf l &&
    (match l.drop pySig.length with
     | d :: _ => d.isDigit
     | [] => false)

/-- Model of `re.search('Python :: \d(\.\d)?', c) ≠ None` on the
character list of `c`: the head pattern matches at some position. -/
def pySearch : List Char → Bool
  | [] => false
  | c :: rest => pyMatchHead (c :: rest) || pySearch rest

/-- Model of the classifier filter predicate of `get_versions`. -/
def hasPyMatch (c : String) : Bool := pySearch c.data

/-- Model of `re.split('\s::\s', v)`: scan left to right, splitting at
each non-overlapping occurrence of whitespace, `::`, whitespace.
First argument accumulates the current piece in reverse. -/
def reSplitAux : List Char → List Char → List (List Char)
  | acc, a :: b :: c :: d :: rest =>
    if isPySpace a && b == ':' && c == ':' && isPySpace d then
      acc.reverse :: reSplitAux [] rest
    else
      reSplitAux (a :: acc) (b :: c :: d :: rest)
  | acc, l => [acc.reverse ++ l]

/-- The pieces of `re.split('\s::\s', v)`, as strings. -/
def splitParts (v : String) : List String :=
  (reSplitAux [] v.data).map (fun l => String.mk l)

/-- Model of Python `str.strip()` restricted to ASCII whitespace. -/
def pyStrip (s : String) : String :=
  String.mk ((s.data.dropWhile isPySpace).reverse.dropWhile isPySpace).reverse

/-- Model of `list(set(xs))` for a list of strings: one occurrence of
each distinct element.  CPython orders the result by hash; the model
keeps the last occurrence, and every theorem about it is stated up to
the set of elements, which is all Python guarantees. -/
def pyDedup : List String → List String
  | [] => []
  | x :: xs => if x ∈ xs then pyDedup xs else x :: pyDedup xs

/-- Model of `re.split('\s::\s', v)[2].strip()` for one classifier:
`none` models the `IndexError` raised when the split has fewer than
three pieces. -/
def tokenOf (v : String) : Option String :=
  ((splitParts v)[2]?).map pyStrip

/-- The list comprehension `[re.split('\s::\s', v)[2].strip() for v in versions]`:
elements in order, failing at the first element whose split has fewer
than three pieces (Python raises `IndexError` there). -/
def mapTokens : List String → Option (List String)
  | [] => some []
  | v :: vs =>
    match tokenOf v with
    | none => none
    | some t =>
      match mapTokens vs with
      | none => none
      | some ts => some (t :: ts)

/-- Model of `get_versions(classifiers)` from `version_support.py`.
Filter the classifiers by the search pattern; if any match, replace each
by piece index 2 of its `\s::\s` split, stripped (raising `IndexError`,
modelled as `none`, if a matching classifier has fewer than three
pieces); return the deduplicated list. -/
def get_versions (classifiers : List String) : Option (List String) :=
  let versions := classifiers.filter hasPyMatch
  if versions.isEmpty then
    some (pyDedup versions)
  else
    (mapTokens versions).map pyDedup

/-- The `info` object of a package metadata record: only the
`classifiers` field is consulted by the code. -/
structure Info where
  classifiers : Option (List String)
deriving DecidableEq, Repr

/-- A parsed metadata record (`resp.json()` result); only the `info`
field is consulted.  `info = none` models both an absent `info` key and
a falsy (`not info`) value. -/
structure Props where
  info : Option Info
deriving DecidableEq, Repr

/-- The two fields of an HTTP response consulted by `read_package`:
the status code, and the parse of the body (`none` models a body that
is not valid JSON, on which `resp.json()` raises). -/
structure Response where
  status_code : Nat
  json : Option Props
deriving DecidableEq, Repr

/-- The named tuple `PkgInfo = namedtuple('PkgInfo', ['versions', 'error'])`. -/
structure PkgInfo where
  versions : List String
  error : Option String
deriving DecidableEq, Repr

/-- Python exceptions that escape `read_package` (only `SkippingError`
is caught there): the JSON decode error from `resp.json()` and the
`IndexError` from `re.split(...)[2]` in `get_versions`. -/
inductive PyExn where
  | jsonDecodeError
  | indexError
deriving DecidableEq, Repr

/-- Model of Python truthiness of the `error` field (`not info.error`):
`None` and the empty string are falsy. -/
def pyTruthy : Option String → Bool
  | none => false
  | some s => s ≠ ""

/-- Model of `read_package(pkg)` as a function of the metadata response
for `pkg`.  The guards run in source order: non-200 status, missing
`info`, missing or empty `classifiers`, each raising `SkippingError`
with its reason, caught locally into `PkgInfo(versions=[], error=reason)`;
an unparsable body or a malformed matching classifier raises an
exception that is NOT caught (`Except.error`). -/
def read_package (resp : Response) : Except PyExn PkgInfo :=
  if resp.status_code ≠ 200 then
    .ok ⟨[], some "error retrieving metadata"⟩
  else
    match resp.json with
    | none => .error .jsonDecodeError
    | some props =>
      match props.info with
      | none => .ok ⟨[], some "no info"⟩
      | some info =>
        match info.classifiers with
        | none => .ok ⟨[], some "no classifiers"⟩
        | some classifiers =>
          if classifiers.isEmpty then .ok ⟨[], some "no classifiers"⟩
          else
            match get_versions classifiers with
            | none => .error .indexError
            | some versions => .ok ⟨versions, none⟩

/-- Increment with default zero: one `VERSIONS[key] += 1` on the
`defaultdict(lambda: 0)`. -/
def incr (t : String → Nat) (key : String) : String → Nat :=
  fun x => if x = key then t key + 1 else t x

/-- One iteration of the aggregation loop body of `__main__` on the
`VERSIONS` tally, given the completed task result `info`:
`VERSIONS['total'] += 1`; then if `info.versions` is non-empty,
`VERSIONS['known'] += 1` and each version increments its own key;
otherwise `nd_unk` or `na` according to the truthiness of `info.error`. -/
def tallyStep (t : String → Nat) (info : PkgInfo) : String → Nat :=
  let t1 := incr t "total"
  if info.versions.isEmpty then
    if pyTruthy info.error then incr t1 "na" else incr t1 "nd_unk"
  else
    info.versions.foldl incr (incr t1 "known")

/-- The `VERSIONS` tally produced by draining the completed tasks in the
order given, starting from the all-zero `defaultdict`. -/
def runTally (infos : List PkgInfo) : String → Nat :=
  infos.foldl tallyStep (fun _ => 0)

/-- The results of all submitted fetch tasks, in some completion order:
`future.result()` re-raises any exception a task raised, so the first
task result that carries an uncaught exception aborts the drain. -/
def collectInfos (fetch : String → Response) : List String → Except PyExn (List PkgInfo)
  | [] => .ok []
  | p :: ps =>
    match read_package (fetch p) with
    | .error e => .error e
    | .ok i =>
      match collectInfos fetch ps with
      | .error e => .error e
      | .ok is => .ok (i :: is)

/-- The index-listing response, reduced to the fields `__main__`
consults: the status code and the `href` targets the HTML parser
extracts from the body, in document order. -/
structure IndexResponse where
  status_code : Nat
  links : List String
deriving DecidableEq, Repr

/-- How a run of `__main__` ends: `fatal` is the `RuntimeError` raised
when the index fetch is not 200 (non-zero exit); `crashed` is an
uncaught per-item exception re-raised by `future.result()`; `finished`
carries the serialized `PKG_INFO` mapping and `VERSIONS` tally. -/
inductive ExitStatus where
  | fatal
  | crashed (e : PyExn)
  | finished (pkg_info : List (String × PkgInfo)) (versions : String → Nat)

/-- Observable trace of one run of `__main__`: which identifiers were
submitted as fetch tasks, whether the two output files were written,
and how the run ended. -/
structure RunTrace where
  submitted : List String
  wroteOutputs : Bool
  exit : ExitStatus

/-- Model of `__main__` of `version_support.py` as a function of the
index-listing response and of the metadata response each package
fetch receives.  A non-200 index response raises `RuntimeError` before
any task is submitted; otherwise one task per listed identifier is
submitted, the completions are drained into `PKG_INFO` and `VERSIONS`,
and the two JSON files are written only after a full drain.  An
uncaught task exception aborts the run before the files are opened. -/
def main_run (idx : IndexResponse) (fetch : String → Response) : RunTrace :=
  if idx.status_code ≠ 200 then
    ⟨[], false, .fatal⟩
  else
    match collectInfos fetch idx.links with
    | .error e => ⟨idx.links, false, .crashed e⟩
    | .ok infos => ⟨idx.links, true, .finished (idx.links.zip infos) (runTally infos)⟩

/-- Result of one call of `expensive` in `learn_multiprocessing.py`:
either the function returns `value*2` (having stored nothing), or it
stores `value*2` into the results container and returns `None`, or it
raises (`results[index]` with `index=None` or out of range). -/
inductive ExpResult where
  | ret (value : Int)
  | stored (results : List (Option Int))
  | raised
deriving DecidableEq, Repr

/-- Model of `expensive(value, results=None, index=None)`: compute
`result = value*2`; if `results` is truthy (not `None` and non-empty),
execute `results[index] = result` and fall off the end (return `None`),
otherwise return `result`. -/
def expensive (value : Int) (results : Option (List (Option Int)) := none)
    (index : Option Nat := none) : ExpResult :=
  let result := value * 2
  match results with
  | none => .ret result
  | some rs =>
    if rs.isEmpty then .ret result
    else
      match index with
      | none => .raised
      | some i => if i < rs.length then .stored (rs.set i (some result)) else .raised

/-- Modelled from the spec (for the refinement check of the
token-extraction claim): the substring of a classifier after the final
`::` separator, with surrounding whitespace trimmed — the last piece of
the `\s::\s` split, stripped. -/
def spec_lastSepToken (v : String) : String :=
  pyStrip ((splitParts v).getLastD "")

/-- The pointwise contribution of one completed task result to the
`VERSIONS` tally (`tallyStep` adds exactly this at every key). -/
def tallyDelta (info : PkgInfo) (k : String) : Nat :=
  (if k = "total" then 1 else 0) +
    if info.versions.isEmpty then
      (if pyTruthy info.error then (if k = "na" then 1 else 0)
       else (if k = "nd_unk" then 1 else 0))
    else
      (if k = "known" then 1 else 0) + info.versions.count k

/-- Unfolding lemma: a non-200 status short-circuits `read_package`. -/
theorem read_package_not200 (resp : Response) (h : resp.status_code ≠ 200) :
    read_package resp = .ok ⟨[], some "error retrieving metadata"⟩ := by
  simp [read_package, h]

/-- Unfolding lemma: `read_package` on a 200 response with field values
given explicitly. -/
theorem read_package_200 (json : Option Props) :
    read_package ⟨200, json⟩ =
      match json with
      | none => .error .jsonDecodeError
      | some props =>
        match props.info with
        | none => .ok ⟨[], some "no info"⟩
        | some info =>
          match info.classifiers with
          | none => .ok ⟨[], some "no classifiers"⟩
          | some classifiers =>
            if classifiers.isEmpty then .ok ⟨[], some "no classifiers"⟩
            else
              match get_versions classifiers with
              | none => .error .indexError
              | some versions => .ok ⟨versions, none⟩ := by
  simp [read_package]

/-- C1: the fetch-and-classify guards run in strict order and
short-circuit at the first failure — non-200 status gives exclusion
`error retrieving metadata` whatever the body holds; on a 200 response
a parsed body lacking `info` gives `no info`; with `info` present,
absent or empty `info.classifiers` gives `no classifiers`; and only
when all guards pass is the classifier scan (`get_versions`) performed,
its value becoming the outcome. -/
theorem read_package_guard_order :
    (∀ resp : Response, resp.status_code ≠ 200 →
      read_package resp = .ok ⟨[], some "error retrieving metadata"⟩) ∧
    (∀ resp : Response, ∀ props : Props, resp.status_code = 200 →
      resp.json = some props → props.info = none →
      read_package resp = .ok ⟨[], some "no info"⟩) ∧
    (∀ resp : Response, ∀ props : Props, ∀ info : Info, resp.status_code = 200 →
      resp.json = some props → props.info = some info →
      (info.classifiers = none ∨ info.classifiers = some []) →
      read_package resp = .ok ⟨[], some "no classifiers"⟩) ∧
    (∀ resp : Response, ∀ props : Props, ∀ info : Info, ∀ cs : List String,
      resp.status_code = 200 → resp.json = some props → props.info = some info →
      info.classifiers = some cs → cs ≠ [] →
      read_package resp =
        (get_versions cs).elim (.error .indexError) (fun vs => .ok ⟨vs, none⟩)) := by
  refine ⟨fun resp h => read_package_not200 resp h, ?_, ?_, ?_⟩
  · rintro ⟨sc, json⟩ props h200 hj hi
    subst h200
    have hj' : json = some props := hj
    subst hj'
    rw [read_package_200]
    simp [hi]
  · rintro ⟨sc, json⟩ props info h200 hj hi hcs
    subst h200
    have hj' : json = some props := hj
    subst hj'
    rw [read_package_200]
    rcases hcs with hcs | hcs <;> simp [hi, hcs]
  · rintro ⟨sc, json⟩ props info cs h200 hj hi hcs hne
    subst h200
    have hj' : json = some props := hj
    subst hj'
    rw [read_package_200]
    simp only [hi, hcs, List.isEmpty_iff, hne, if_false]
    cases h : get_versions cs <;> simp [h]

/-- C1 witness: each guard conjunct applied at a concrete response. -/
theorem read_package_guard_order_witness :
    read_package ⟨404, none⟩ = .ok ⟨[], some "error retrieving metadata"⟩ ∧
    read_package ⟨200, some ⟨none⟩⟩ = .ok ⟨[], some "no info"⟩ ∧
    read_package ⟨200, some ⟨some ⟨some []⟩⟩⟩ = .ok ⟨[], some "no classifiers"⟩ ∧
    read_package ⟨200, some ⟨some ⟨some ["foo"]⟩⟩⟩ =
      (get_versions ["foo"]).elim (.error .indexError) (fun vs => .ok ⟨vs, none⟩) :=
  ⟨read_package_guard_order.1 ⟨404, none⟩ (by decide),
   read_package_guard_order.2.1 ⟨200, some ⟨none⟩⟩ ⟨none⟩ rfl rfl rfl,
   read_package_guard_order.2.2.1 ⟨200, some ⟨some ⟨some []⟩⟩⟩ ⟨some ⟨some []⟩⟩ ⟨some []⟩
     rfl rfl rfl (Or.inr rfl),
   read_package_guard_order.2.2.2 ⟨200, some ⟨some ⟨some ["foo"]⟩⟩⟩ ⟨some ⟨some ["foo"]⟩⟩
     ⟨some ["foo"]⟩ ["foo"] rfl rfl rfl rfl (by decide)⟩

/-- Helper: a 200 response whose body does not parse makes
`read_package` raise the (uncaught) JSON decode error. -/
theorem read_package_json_none (resp : Response) (h200 : resp.status_code = 200)
    (hj : resp.json = none) : read_package resp = .error .jsonDecodeError := by
  obtain ⟨sc, json⟩ := resp
  have h : sc = 200 := h200
  subst h
  have hj' : json = none := hj
  subst hj'
  rfl

/-- C3 counterexample: on a 200 response with an unparsable body,
`read_package` raises an uncaught JSON decode error; it does not return
the locally-caught exclusion `no info`. -/
theorem read_package_bad_json_cex :
    read_package ⟨200, none⟩ = .error .jsonDecodeError ∧
    (Except.error .jsonDecodeError : Except PyExn PkgInfo) ≠
      .ok ⟨[], some "no info"⟩ :=
  ⟨rfl, fun h => Except.noConfusion h⟩

/-- C3 (amended): a success-status response whose body does not parse
raises a JSON decode error that `read_package` does NOT catch (only
`SkippingError` is caught), so it propagates out of the item's
processing and aborts the run before the output files are written; the
exclusion `no info`, caught locally, arises only when the body parses
but lacks the `info` field. -/
theorem read_package_bad_json_propagates :
    (∀ resp : Response, resp.status_code = 200 → resp.json = none →
      read_package resp = .error .jsonDecodeError) ∧
    (∀ resp : Response, ∀ props : Props, resp.status_code = 200 →
      resp.json = some props → props.info = none →
      read_package resp = .ok ⟨[], some "no info"⟩) ∧
    (∀ p : String, ∀ idx : IndexResponse, ∀ fetch : String → Response,
      idx.status_code = 200 → idx.links = [p] →
      (fetch p).status_code = 200 → (fetch p).json = none →
      (main_run idx fetch).wroteOutputs = false ∧
      (main_run idx fetch).exit = .crashed .jsonDecodeError) := by
  refine ⟨read_package_json_none, ?_, ?_⟩
  · rintro ⟨sc, json⟩ props h200 hj hi
    have h : sc = 200 := h200
    subst h
    have hj' : json = some props := hj
    subst hj'
    rw [read_package_200]
    simp [hi]
  · rintro p ⟨sc, links⟩ fetch h200 hlinks hf200 hfjson
    have h : sc = 200 := h200
    subst h
    have hl : links = [p] := hlinks
    subst hl
    have hrp : read_package (fetch p) = .error .jsonDecodeError :=
      read_package_json_none (fetch p) hf200 hfjson
    simp [main_run, collectInfos, hrp]

/-- C3 witness: each amended conjunct applied at a concrete input. -/
theorem read_package_bad_json_witness :
    read_package ⟨200, some ⟨none⟩⟩ = .ok ⟨[], some "no info"⟩ ∧
    (main_run ⟨200, ["demo"]⟩ (fun _ => ⟨200, none⟩)).wroteOutputs = false ∧
    (main_run ⟨200, ["demo"]⟩ (fun _ => ⟨200, none⟩)).exit =
      .crashed .jsonDecodeError :=
  ⟨read_package_bad_json_propagates.2.1 ⟨200, some ⟨none⟩⟩ ⟨none⟩ rfl rfl rfl,
   read_package_bad_json_propagates.2.2 "demo" ⟨200, ["demo"]⟩
     (fun _ => ⟨200, none⟩) rfl rfl rfl rfl⟩

/-- C4 counterexample: for the four-part classifier named by the spec,
the code extracts split piece index 2 (`"3"`), not the text after the
final `::` separator (`"Only"`). -/
theorem get_versions_last_token_cex :
    get_versions ["Programming Language :: Python :: 3 :: Only"] = some ["3"] ∧
    spec_lastSepToken "Programming Language :: Python :: 3 :: Only" = "Only" ∧
    some ["3"] ≠
      some [spec_lastSepToken "Programming Language :: Python :: 3 :: Only"] := by
  refine ⟨by decide, by decide, by decide⟩

/-- C4 (amended): for every classifier matching the version pattern,
the extracted token is piece index 2 of the `\s::\s` split (the third
`::`-separated component), stripped of surrounding whitespace — not the
piece after the final separator. -/
theorem get_versions_third_component :
    ∀ c p : String, hasPyMatch c = true → (splitParts c)[2]? = some p →
      get_versions [c] = some [pyStrip p] := by
  intro c p hmatch hsplit
  simp [get_versions, List.filter_cons, hmatch, mapTokens, tokenOf, hsplit, pyDedup]

/-- C4 witness: the amended extraction rule at the spec's own four-part
classifier. -/
theorem get_versions_third_component_witness :
    get_versions ["Programming Language :: Python :: 3 :: Only"] =
      some [pyStrip "3"] :=
  get_versions_third_component "Programming Language :: Python :: 3 :: Only" "3"
    (by decide) (by decide)

/-- C5 counterexample: a kept package whose non-empty classifier list
matches no version pattern yields the outcome `PkgInfo([], None)` —
neither a non-empty set of version tags nor an exclusion reason, so the
two cases of the claim are not exhaustive. -/
theorem read_package_outcome_cex :
    read_package ⟨200, some ⟨some ⟨some ["foo"]⟩⟩⟩ = .ok ⟨[], none⟩ ∧
    ¬((PkgInfo.mk [] none).versions ≠ [] ∨ (PkgInfo.mk [] none).error ≠ none) := by
  refine ⟨rfl, by simp⟩

/-- C5 (amended): every outcome `read_package` returns is exactly one
of: non-empty version tags with no error (success); empty tags with one
of the three exclusion reasons; or empty tags with no error (scan found
no version pattern).  No outcome carries both a non-empty tag set and
an error. -/
theorem read_package_outcome_trichotomy :
    ∀ resp : Response, ∀ info : PkgInfo, read_package resp = .ok info →
      (info.versions ≠ [] ∧ info.error = none) ∨
      (info.versions = [] ∧
        (info.error = some "error retrieving metadata" ∨
         info.error = some "no info" ∨ info.error = some "no classifiers")) ∨
      (info.versions = [] ∧ info.error = none) := by
  rintro ⟨sc, json⟩ info h
  unfold read_package at h
  split at h
  · rw [Except.ok.injEq] at h
    subst h
    simp
  · rcases json with _ | props
    · cases h
    rcases props with ⟨_ | info'⟩
    · rw [Except.ok.injEq] at h
      subst h
      simp
    rcases info' with ⟨_ | cs⟩
    · rw [Except.ok.injEq] at h
      subst h
      simp
    simp only at h
    split at h
    · rw [Except.ok.injEq] at h
      subst h
      simp
    · split at h
      · cases h
      · rw [Except.ok.injEq] at h
        subst h
        rcases hv : ‹List String› with _ | _
        all_goals simp_all

/-- C5 witness: the amended trichotomy applied at a concrete response. -/
theorem read_package_outcome_trichotomy_witness :
    ((PkgInfo.mk [] (some "no classifiers")).versions ≠ [] ∧
      (PkgInfo.mk [] (some "no classifiers")).error = none) ∨
    ((PkgInfo.mk [] (some "no classifiers")).versions = [] ∧
      ((PkgInfo.mk [] (some "no classifiers")).error = some "error retrieving metadata" ∨
       (PkgInfo.mk [] (some "no classifiers")).error = some "no info" ∨
       (PkgInfo.mk [] (some "no classifiers")).error = some "no classifiers")) ∨
    ((PkgInfo.mk [] (some "no classifiers")).versions = [] ∧
      (PkgInfo.mk [] (some "no classifiers")).error = none) :=
  read_package_outcome_trichotomy ⟨200, some ⟨some ⟨some []⟩⟩⟩
    ⟨[], some "no classifiers"⟩ rfl

/-- Helper: evaluating one default-zero increment. -/
theorem incr_apply (t : String → Nat) (key x : String) :
    incr t key x = t x + if x = key then 1 else 0 := by
  unfold incr
  by_cases h : x = key
  · subst h
    simp
  · simp [h]

/-- Helper: the per-version increment loop adds the multiplicity of the
key in the version list. -/
theorem foldl_incr_apply (vs : List String) (t : String → Nat) (k : String) :
    (vs.foldl incr t) k = t k + vs.count k := by
  induction vs generalizing t with
  | nil => simp
  | cons v vs ih =>
    rw [List.foldl_cons, ih, incr_apply, List.count_cons]
    by_cases h : k = v
    · subst h
      simp
      omega
    · have h' : ¬v = k := fun hh => h hh.symm
      simp [h, h']

/-- Helper: one aggregation step adds `tallyDelta` pointwise. -/
theorem tallyStep_apply (t : String → Nat) (info : PkgInfo) (k : String) :
    tallyStep t info k = t k + tallyDelta info k := by
  unfold tallyStep tallyDelta
  by_cases he : info.versions.isEmpty = true
  · rw [if_pos he, if_pos he]
    by_cases ht : pyTruthy info.error = true
    · rw [if_pos ht, if_pos ht, incr_apply, incr_apply]
      omega
    · rw [if_neg ht, if_neg ht, incr_apply, incr_apply]
      omega
  · rw [if_neg he, if_neg he, foldl_incr_apply, incr_apply, incr_apply]
    omega

/-- Helper: draining a list of results adds the pointwise deltas. -/
theorem foldl_tallyStep_apply (infos : List PkgInfo) (t : String → Nat) (k : String) :
    (infos.foldl tallyStep t) k = t k + (infos.map (fun i => tallyDelta i k)).sum := by
  induction infos generalizing t with
  | nil => simp
  | cons i is ih =>
    rw [List.foldl_cons, ih, tallyStep_apply]
    simp [add_assoc]

/-- C2 counterexample: the classifier `Python :: 3 :: total` is kept by
the scan and yields the version tag `total`, whose per-tag increment
hits the `total` sentinel bucket: that bucket grows by 2 in one step
and the sum `known + nd_unk + na = total` fails. -/
theorem tallyStep_sentinel_collision_cex :
    read_package ⟨200, some ⟨some ⟨some ["Python :: 3 :: total"]⟩⟩⟩ =
      .ok ⟨["total"], none⟩ ∧
    tallyStep (fun _ => 0) ⟨["total"], none⟩ "total" = 2 ∧
    tallyStep (fun _ => 0) ⟨["total"], none⟩ "known" +
        tallyStep (fun _ => 0) ⟨["total"], none⟩ "nd_unk" +
        tallyStep (fun _ => 0) ⟨["total"], none⟩ "na" ≠
      tallyStep (fun _ => 0) ⟨["total"], none⟩ "total" :=
  ⟨rfl, by decide, by decide⟩

/-- C2 (amended): provided no version tag of the outcome equals a
sentinel bucket name (`total`, `known`, `nd_unk`, `na`) and the error
field is not the (falsy) empty string, one aggregation step increments
`total` by 1, increments exactly one of `known` / `nd_unk` / `na` by 1
according to the outcome (tags present / no tags and no error / error),
increments each version tag's own counter by 1, and preserves the sum
invariant `known + nd_unk + na = total`. -/
theorem tallyStep_buckets :
    ∀ t : String → Nat, ∀ info : PkgInfo,
      info.versions.Nodup →
      (∀ v ∈ info.versions, v ≠ "total" ∧ v ≠ "known" ∧ v ≠ "nd_unk" ∧ v ≠ "na") →
      info.error ≠ some "" →
      (tallyStep t info "total" = t "total" + 1) ∧
      (info.versions ≠ [] →
        tallyStep t info "known" = t "known" + 1 ∧
        tallyStep t info "nd_unk" = t "nd_unk" ∧
        tallyStep t info "na" = t "na" ∧
        (∀ v ∈ info.versions, tallyStep t info v = t v + 1)) ∧
      (info.versions = [] → info.error = none →
        tallyStep t info "nd_unk" = t "nd_unk" + 1 ∧
        tallyStep t info "known" = t "known" ∧
        tallyStep t info "na" = t "na") ∧
      (info.versions = [] → info.error ≠ none →
        tallyStep t info "na" = t "na" + 1 ∧
        tallyStep t info "known" = t "known" ∧
        tallyStep t info "nd_unk" = t "nd_unk") ∧
      (t "known" + t "nd_unk" + t "na" = t "total" →
        tallyStep t info "known" + tallyStep t info "nd_unk" +
          tallyStep t info "na" = tallyStep t info "total") := by
  intro t info hnd hsent herr
  have hct : info.versions.count "total" = 0 :=
    List.count_eq_zero.mpr (fun hm => (hsent _ hm).1 rfl)
  have hck : info.versions.count "known" = 0 :=
    List.count_eq_zero.mpr (fun hm => (hsent _ hm).2.1 rfl)
  have hcu : info.versions.count "nd_unk" = 0 :=
    List.count_eq_zero.mpr (fun hm => (hsent _ hm).2.2.1 rfl)
  have hcn : info.versions.count "na" = 0 :=
    List.count_eq_zero.mpr (fun hm => (hsent _ hm).2.2.2 rfl)
  have hdsum : tallyDelta info "known" + tallyDelta info "nd_unk" +
      tallyDelta info "na" = tallyDelta info "total" := by
    unfold tallyDelta
    by_cases he : info.versions.isEmpty <;> by_cases ht : pyTruthy info.error <;>
      simp [he, ht, hct, hck, hcu, hcn]
  refine ⟨?_, ?_, ?_, ?_, ?_⟩
  · rw [tallyStep_apply]
    have : tallyDelta info "total" = 1 := by
      unfold tallyDelta
      by_cases he : info.versions.isEmpty <;> by_cases ht : pyTruthy info.error <;>
        simp [he, ht, hct]
    rw [this]
  · intro hne
    have he : info.versions.isEmpty = false := by simp [List.isEmpty_iff, hne]
    refine ⟨?_, ?_, ?_, ?_⟩
    · rw [tallyStep_apply]
      have : tallyDelta info "known" = 1 := by
        unfold tallyDelta
        simp [he, hck]
      rw [this]
    · rw [tallyStep_apply]
      have : tallyDelta info "nd_unk" = 0 := by
        unfold tallyDelta
        simp [he, hcu]
      rw [this]
      omega
    · rw [tallyStep_apply]
      have : tallyDelta info "na" = 0 := by
        unfold tallyDelta
        simp [he, hcn]
      rw [this]
      omega
    · intro v hm
      obtain ⟨h1, h2, _, _⟩ := hsent v hm
      have hcv : info.versions.count v = 1 := List.count_eq_one_of_mem hnd hm
      rw [tallyStep_apply]
      have : tallyDelta info v = 1 := by
        unfold tallyDelta
        simp [he, h1, h2, hcv]
      rw [this]
  · intro hemp hnone
    have he : info.versions.isEmpty = true := by simp [List.isEmpty_iff, hemp]
    have ht : pyTruthy info.error = false := by simp [hnone, pyTruthy]
    refine ⟨?_, ?_, ?_⟩ <;> rw [tallyStep_apply] <;>
      · have h0 : True := trivial
        unfold tallyDelta
        simp [he, ht]
  · intro hemp hsome
    have he : info.versions.isEmpty = true := by simp [List.isEmpty_iff, hemp]
    have ht : pyTruthy info.error = true := by
      rcases h : info.error with _ | s
      · exact absurd h hsome
      · have hs : s ≠ "" := by
          intro hs
          exact herr (by rw [h, hs])
        simp [pyTruthy, hs]
    refine ⟨?_, ?_, ?_⟩ <;> rw [tallyStep_apply] <;>
      · have h0 : True := trivial
        unfold tallyDelta
        simp [he, ht]
  · intro hsum
    rw [tallyStep_apply, tallyStep_apply, tallyStep_apply, tallyStep_apply]
    omega

/-- C2 witness: the amended bucket discipline at one concrete outcome. -/
theorem tallyStep_buckets_witness :
    tallyStep (fun _ => 0) ⟨["3.6"], none⟩ "total" = (fun _ => (0 : Nat)) "total" + 1 :=
  (tallyStep_buckets (fun _ => 0) ⟨["3.6"], none⟩ (by decide) (by decide) (by decide)).1

/-- C6: the final tally is the same for every completion order — the
aggregation is an order-insensitive accumulation, so permuting the list
of completed task results leaves `runTally` unchanged. -/
theorem runTally_perm_invariant :
    ∀ l l' : List PkgInfo, l.Perm l' → runTally l = runTally l' := by
  intro l l' hp
  funext k
  unfold runTally
  rw [foldl_tallyStep_apply, foldl_tallyStep_apply,
    (hp.map (fun i => tallyDelta i k)).sum_eq]

/-- C6 witness: two completion orders of the same two results give the
same tally. -/
theorem runTally_perm_invariant_witness :
    runTally [⟨["2.7"], none⟩, ⟨[], some "no info"⟩] =
      runTally [⟨[], some "no info"⟩, ⟨["2.7"], none⟩] :=
  runTally_perm_invariant _ _ (List.Perm.swap _ _ _)

/-- Helper: a fully drained run yields one result per submitted task. -/
theorem collectInfos_length (fetch : String → Response) :
    ∀ ps : List String, ∀ infos : List PkgInfo,
      collectInfos fetch ps = .ok infos → infos.length = ps.length := by
  intro ps
  induction ps with
  | nil =>
    intro infos h
    cases h
    rfl
  | cons p ps ih =>
    intro infos h
    unfold collectInfos at h
    rcases hr : read_package (fetch p) with e | i
    · rw [hr] at h
      cases h
    · rw [hr] at h
      rcases hc : collectInfos fetch ps with e | is
      · rw [hc] at h
        cases h
      · rw [hc] at h
        cases h
        simp [ih is hc]

/-- Helper: when no outcome carries the literal tag `total`, each drain
step adds exactly 1 to the `total` bucket. -/
theorem foldl_tallyStep_total (infos : List PkgInfo) :
    ∀ t : String → Nat, (∀ i ∈ infos, "total" ∉ i.versions) →
      (infos.foldl tallyStep t) "total" = t "total" + infos.length := by
  induction infos with
  | nil =>
    intro t _
    simp
  | cons i is ih =>
    intro t h
    rw [List.foldl_cons, ih _ (fun j hj => h j (List.mem_cons_of_mem _ hj)),
      tallyStep_apply]
    have hc : i.versions.count "total" = 0 :=
      List.count_eq_zero.mpr (h i (List.mem_cons_self _ _))
    have hd : tallyDelta i "total" = 1 := by
      unfold tallyDelta
      by_cases he : i.versions.isEmpty <;> by_cases ht : pyTruthy i.error <;>
        simp [he, ht, hc]
    rw [hd]
    simp [List.length_cons]
    omega

/-- C7 counterexample: one listed identifier whose classifier is
`Python :: 3 :: total` drains into a tally whose `total` bucket is 2,
not the Lister count 1 — the task increments `total` twice. -/
theorem main_total_collision_cex :
    collectInfos (fun _ => ⟨200, some ⟨some ⟨some ["Python :: 3 :: total"]⟩⟩⟩) ["a"] =
      .ok [⟨["total"], none⟩] ∧
    runTally [⟨["total"], none⟩] "total" = 2 ∧
    (["a"] : List String).length = 1 ∧ (2 : Nat) ≠ 1 :=
  ⟨rfl, by decide, by decide, by decide⟩

/-- C7 (amended): when the index fetch succeeds and every task result
arrives without an uncaught exception, every listed identifier is
submitted as one fetch task, the run finishes with one recorded result
per identifier, and — provided no extracted version tag is the literal
string `total` — the `total` bucket equals the number of identifiers
the Lister returned. -/
theorem main_total_count :
    ∀ idx : IndexResponse, ∀ fetch : String → Response, ∀ infos : List PkgInfo,
      idx.status_code = 200 →
      collectInfos fetch idx.links = .ok infos →
      (∀ i ∈ infos, "total" ∉ i.versions) →
      (main_run idx fetch).submitted = idx.links ∧
      (main_run idx fetch).exit = .finished (idx.links.zip infos) (runTally infos) ∧
      runTally infos "total" = idx.links.length := by
  intro idx fetch infos h200 hc htag
  have hmain : main_run idx fetch =
      ⟨idx.links, true, .finished (idx.links.zip infos) (runTally infos)⟩ := by
    unfold main_run
    rw [if_neg (by simp [h200]), hc]
  refine ⟨by rw [hmain], by rw [hmain], ?_⟩
  unfold runTally
  rw [foldl_tallyStep_total infos (fun _ => 0) htag,
    collectInfos_length fetch idx.links infos hc]
  omega

/-- C7 witness: one listed identifier, fetched with a 404, drains into
a tally with `total = 1`. -/
theorem main_total_count_witness :
    (main_run ⟨200, ["a"]⟩ (fun _ => ⟨404, none⟩)).submitted = ["a"] ∧
    (main_run ⟨200, ["a"]⟩ (fun _ => ⟨404, none⟩)).exit =
      .finished ((["a"] : List String).zip [⟨[], some "error retrieving metadata"⟩])
        (runTally [⟨[], some "error retrieving metadata"⟩]) ∧
    runTally [⟨[], some "error retrieving metadata"⟩] "total" =
      (["a"] : List String).length :=
  main_total_count ⟨200, ["a"]⟩ (fun _ => ⟨404, none⟩)
    [⟨[], some "error retrieving metadata"⟩] rfl rfl (by decide)

/-- C9: a non-200 index-listing response makes the run abort with the
fatal `RuntimeError` before any fetch task is submitted and with
neither output artifact written. -/
theorem main_fatal_on_index_error :
    ∀ idx : IndexResponse, ∀ fetch : String → Response, idx.status_code ≠ 200 →
      main_run idx fetch = ⟨[], false, .fatal⟩ := by
  intro idx fetch h
  unfold main_run
  rw [if_pos h]

/-- C9 witness: a 503 index response aborts fatally. -/
theorem main_fatal_on_index_error_witness :
    main_run ⟨503, ["x"]⟩ (fun _ => ⟨200, none⟩) = ⟨[], false, .fatal⟩ :=
  main_fatal_on_index_error ⟨503, ["x"]⟩ (fun _ => ⟨200, none⟩) (by decide)

/-- Helper: deduplication preserves the set of elements. -/
theorem pyDedup_mem (l : List String) (a : String) : a ∈ pyDedup l ↔ a ∈ l := by
  induction l with
  | nil => simp [pyDedup]
  | cons x xs ih =>
    unfold pyDedup
    by_cases h : x ∈ xs
    · rw [if_pos h, ih]
      constructor
      · exact fun hm => List.mem_cons_of_mem _ hm
      · intro hm
        rcases List.mem_cons.mp hm with rfl | hm
        · exact h
        · exact hm
    · rw [if_neg h]
      simp [ih]

/-- Helper: deduplication leaves no duplicates. -/
theorem pyDedup_nodup (l : List String) : (pyDedup l).Nodup := by
  induction l with
  | nil => simp [pyDedup]
  | cons x xs ih =>
    unfold pyDedup
    by_cases h : x ∈ xs
    · rw [if_pos h]
      exact ih
    · rw [if_neg h]
      exact List.nodup_cons.mpr ⟨fun hm => h ((pyDedup_mem xs x).mp hm), ih⟩

/-- Helper: the token comprehension raises exactly when some element's
split lacks piece index 2. -/
theorem mapTokens_eq_none_iff (l : List String) :
    mapTokens l = none ↔ ∃ x ∈ l, tokenOf x = none := by
  induction l with
  | nil => simp [mapTokens]
  | cons v vs ih =>
    unfold mapTokens
    rcases hv : tokenOf v with _ | t
    · simp only [hv]
      constructor
      · intro _
        exact ⟨v, List.mem_cons_self _ _, hv⟩
      · intro _
        trivial
    · simp only [hv]
      rcases hm : mapTokens vs with _ | ts
      · simp only [hm]
        constructor
        · intro _
          obtain ⟨x, hx, hxt⟩ := ih.mp hm
          exact ⟨x, List.mem_cons_of_mem _ hx, hxt⟩
        · intro _
          trivial
      · simp only [hm]
        constructor
        · intro h
          cases h
        · rintro ⟨x, hx, hxt⟩
          rcases List.mem_cons.mp hx with rfl | hx
          · rw [hv] at hxt
            cases hxt
          · have hn := ih.mpr ⟨x, hx, hxt⟩
            rw [hm] at hn
            cases hn

/-- Helper: membership in a successful token comprehension. -/
theorem mapTokens_mem (l : List String) (ys : List String) (a : String)
    (h : mapTokens l = some ys) : a ∈ ys ↔ ∃ x ∈ l, tokenOf x = some a := by
  induction l generalizing ys with
  | nil =>
    unfold mapTokens at h
    cases h
    simp
  | cons v vs ih =>
    unfold mapTokens at h
    rcases hv : tokenOf v with _ | t
    · rw [hv] at h
      cases h
    · rw [hv] at h
      rcases hm : mapTokens vs with _ | ts
      · rw [hm] at h
        cases h
      · rw [hm] at h
        cases h
        constructor
        · intro hy
          rcases List.mem_cons.mp hy with rfl | hy
          · exact ⟨v, List.mem_cons_self _ _, hv⟩
          · obtain ⟨x, hx, hxt⟩ := (ih ts hm).mp hy
            exact ⟨x, List.mem_cons_of_mem _ hx, hxt⟩
        · rintro ⟨x, hx, hxt⟩
          rcases List.mem_cons.mp hx with rfl | hx
          · rw [hv] at hxt
            cases hxt
            exact List.mem_cons_self _ _
          · exact List.mem_cons_of_mem _ ((ih ts hm).mpr ⟨x, hx, hxt⟩)

/-- Helper: `get_versions` raises exactly when some matching classifier
has a split with fewer than three pieces. -/
theorem get_versions_eq_none_iff (l : List String) :
    get_versions l = none ↔ ∃ x ∈ l, hasPyMatch x = true ∧ tokenOf x = none := by
  unfold get_versions
  by_cases he : (l.filter hasPyMatch).isEmpty = true
  · rw [if_pos he]
    rw [List.isEmpty_iff] at he
    constructor
    · intro h
      cases h
    · rintro ⟨x, hx, hmx, _⟩
      have hxf : x ∈ l.filter hasPyMatch := List.mem_filter.mpr ⟨hx, hmx⟩
      rw [he] at hxf
      cases hxf
  · rw [if_neg he]
    constructor
    · intro h
      have hn : mapTokens (l.filter hasPyMatch) = none := by
        rcases hm : mapTokens (l.filter hasPyMatch) with _ | ts
        · rfl
        · rw [hm] at h
          cases h
      obtain ⟨x, hx, hxt⟩ := (mapTokens_eq_none_iff _).mp hn
      have hxf := List.mem_filter.mp hx
      exact ⟨x, hxf.1, hxf.2, hxt⟩
    · rintro ⟨x, hx, hmx, hxt⟩
      have hn : mapTokens (l.filter hasPyMatch) = none :=
        (mapTokens_eq_none_iff _).mpr ⟨x, List.mem_filter.mpr ⟨hx, hmx⟩, hxt⟩
      rw [hn]
      rfl

/-- Helper: membership in a successful `get_versions` result. -/
theorem get_versions_mem (l : List String) (vs : List String) (a : String)
    (h : get_versions l = some vs) :
    a ∈ vs ↔ ∃ x ∈ l, hasPyMatch x = true ∧ tokenOf x = some a := by
  unfold get_versions at h
  by_cases he : (l.filter hasPyMatch).isEmpty = true
  · rw [if_pos he] at h
    rw [List.isEmpty_iff] at he
    rw [he] at h
    cases h
    constructor
    · intro hm
      simp [pyDedup] at hm
    · rintro ⟨x, hx, hmx, _⟩
      have hxf : x ∈ l.filter hasPyMatch := List.mem_filter.mpr ⟨hx, hmx⟩
      rw [he] at hxf
      cases hxf
  · rw [if_neg he] at h
    rcases hm : mapTokens (l.filter hasPyMatch) with _ | ts
    · rw [hm] at h
      cases h
    · rw [hm] at h
      cases h
      rw [pyDedup_mem, mapTokens_mem _ ts a hm]
      constructor
      · rintro ⟨x, hx, hxt⟩
        have hxf := List.mem_filter.mp hx
        exact ⟨x, hxf.1, hxf.2, hxt⟩
      · rintro ⟨x, hx, hmx, hxt⟩
        exact ⟨x, List.mem_filter.mpr ⟨hx, hmx⟩, hxt⟩

/-- Helper: a successful `get_versions` result has no duplicates. -/
theorem get_versions_nodup (l : List String) (vs : List String)
    (h : get_versions l = some vs) : vs.Nodup := by
  unfold get_versions at h
  by_cases he : (l.filter hasPyMatch).isEmpty = true
  · rw [if_pos he] at h
    cases h
    exact pyDedup_nodup _
  · rw [if_neg he] at h
    rcases hm : mapTokens (l.filter hasPyMatch) with _ | ts
    · rw [hm] at h
      cases h
    · rw [hm] at h
      cases h
      exact pyDedup_nodup _

/-- C8: version-tag extraction is order-insensitive and deduplicating —
permuting the classifier list changes neither whether the scan raises
nor the set of extracted tokens, and a successful result never repeats
a token (so duplicate classifiers contribute one token). -/
theorem get_versions_set_semantics :
    ∀ l l' : List String, l.Perm l' →
      ((get_versions l = none ↔ get_versions l' = none) ∧
       (∀ vs vs', get_versions l = some vs → get_versions l' = some vs' →
          ∀ a, (a ∈ vs ↔ a ∈ vs')) ∧
       (∀ vs, get_versions l = some vs → vs.Nodup)) := by
  intro l l' hp
  refine ⟨?_, ?_, fun vs h => get_versions_nodup l vs h⟩
  · rw [get_versions_eq_none_iff, get_versions_eq_none_iff]
    constructor
    · rintro ⟨x, hx, hmx, hxt⟩
      exact ⟨x, hp.mem_iff.mp hx, hmx, hxt⟩
    · rintro ⟨x, hx, hmx, hxt⟩
      exact ⟨x, hp.mem_iff.mpr hx, hmx, hxt⟩
  · intro vs vs' h h' a
    rw [get_versions_mem l vs a h, get_versions_mem l' vs' a h']
    constructor
    · rintro ⟨x, hx, hmx, hxt⟩
      exact ⟨x, hp.mem_iff.mp hx, hmx, hxt⟩
    · rintro ⟨x, hx, hmx, hxt⟩
      exact ⟨x, hp.mem_iff.mpr hx, hmx, hxt⟩

/-- C8 witness: the spec's own example pair of classifier orders, with
the token set membership compared at `3.6`. -/
theorem get_versions_set_semantics_witness :
    ("3.6" : String) ∈ ["3", "3.6"] ↔ ("3.6" : String) ∈ ["3.6", "3"] :=
  (get_versions_set_semantics
      ["Programming Language :: Python :: 3", "Programming Language :: Python :: 3.6"]
      ["Programming Language :: Python :: 3.6", "Programming Language :: Python :: 3"]
      (List.Perm.swap _ _ _)).2.1
    ["3", "3.6"] ["3.6", "3"] (by decide) (by decide) "3.6"

/-- C10: with no results container `expensive` returns `value*2`; with
a truthy (non-empty) container and an in-range index it stores
`value*2` at that index and returns `None` — one call never both
returns and stores. -/
theorem expensive_spec :
    ∀ value : Int,
      expensive value none none = .ret (value * 2) ∧
      (∀ rs : List (Option Int), ∀ i : Nat, rs ≠ [] → i < rs.length →
        expensive value (some rs) (some i) = .stored (rs.set i (some (value * 2)))) := by
  intro value
  refine ⟨rfl, ?_⟩
  intro rs i hne hlt
  unfold expensive
  simp [List.isEmpty_iff, hne, hlt]

/-- C10 witness: the two modes of `expensive` at concrete arguments. -/
theorem expensive_spec_witness :
    expensive 5 (some [none, none]) (some 1) =
      .stored (([none, none] : List (Option Int)).set 1 (some (5 * 2))) :=
  (expensive_spec 5).2 [none, none] 1 (by decide) (by decide)
